import Mathlib

/-!
Verification development for the free-tv IPTV front-end.

The JavaScript sources are shallowly embedded:
* `src/js/m3u-pharser.js` — the `M3UParser` object (`parse`, `parseExtInf`,
  `generateId`, `search`, `fetchPlaylist` with its `CORS_PROXIES` list) and the
  `Navigation` object (`updateFocusableElements`, `navigate`, `setFocus`,
  `select`, `back`).
* `src/js/app.js` — only the set of method names the `App` object defines
  (`Navigation.back` dispatches dynamically into it).
* the player module (unnamed source file) — only the set of method names the
  `Player` object defines, for the same reason.

JavaScript machine behaviour is made explicit: array indexing out of range
yields `Option.none` (JS `undefined`); reading a property of `undefined`, or
calling a missing method, is a thrown `TypeError`, modelled by functions that
return `Option`/`Except` with `none`/`error` for the throw.  Strings are Lean
`String`s; `toLowerCase`, `trim`, `includes`, `split` and `startsWith` are
re-implemented below over `List Char` so that every definition reduces in the
kernel.
-/

namespace FreeTV

/-! ### JavaScript string primitives -/

/-- Whitespace as recognised by JS `String.prototype.trim` (ASCII subset:
space, tab, line feed, vertical tab, form feed, carriage return). -/
def isJsWS (c : Char) : Bool :=
  c = ' ' || c = Char.ofNat 9 || c = Char.ofNat 10 || c = Char.ofNat 11 ||
  c = Char.ofNat 12 || c = Char.ofNat 13

/-- ASCII lowercasing of a single character, as JS `toLowerCase` acts on the
characters appearing in this code base. -/
def jsCharToLower (c : Char) : Char :=
  match c with
  | 'A' => 'a' | 'B' => 'b' | 'C' => 'c' | 'D' => 'd' | 'E' => 'e' | 'F' => 'f' | 'G' => 'g'
  | 'H' => 'h' | 'I' => 'i' | 'J' => 'j' | 'K' => 'k' | 'L' => 'l' | 'M' => 'm' | 'N' => 'n'
  | 'O' => 'o' | 'P' => 'p' | 'Q' => 'q' | 'R' => 'r' | 'S' => 's' | 'T' => 't' | 'U' => 'u'
  | 'V' => 'v' | 'W' => 'w' | 'X' => 'x' | 'Y' => 'y' | 'Z' => 'z'
  | other => other

/-- JS `s.toLowerCase()`. -/
def jsToLower (s : String) : String :=
  (s.toList.map jsCharToLower).asString

/-- Drop leading and trailing JS whitespace from a character list. -/
def trimChars (l : List Char) : List Char :=
  ((l.dropWhile isJsWS).reverse.dropWhile isJsWS).reverse

/-- JS `s.trim()`. -/
def jsTrim (s : String) : String :=
  (trimChars s.toList).asString

/-- Does the first list start with the second one?  (JS `startsWith`.) -/
def startsWithList : List Char → List Char → Bool
  | _, [] => true
  | [], _ :: _ => false
  | c :: cs, p :: ps => c == p && startsWithList cs ps

/-- JS `s.startsWith(p)`. -/
def jsStartsWith (s p : String) : Bool :=
  startsWithList s.toList p.toList

/-- JS `s.includes(sub)`: `sub` occurs contiguously inside `s`. -/
def jsIncludes (s sub : String) : Bool :=
  decide (sub.toList <:+: s.toList)

/-- JS `content.split('\n')`, keeping empty pieces. -/
def splitNl (l : List Char) : List (List Char) :=
  l.foldr
    (fun c acc =>
      match acc with
      | [] => [[c]]
      | h :: t => if c = '\n' then [] :: h :: t else (c :: h) :: t)
    [[]]

/-! ### The channel record (`M3UParser.parseExtInf` result shape) -/

/-- A channel record as built by the parser.  `url` and `id` are attached when
the stream-URL line is consumed by `parse`. -/
structure Channel where
  name : String := "Unknown Channel"
  logo : String := ""
  group : String := "Uncategorized"
  language : String := ""
  country : String := ""
  tvgId : String := ""
  tvgName : String := ""
  url : String := ""
  id : String := ""
deriving DecidableEq, Repr

/-! ### `M3UParser.parseExtInf` -/

/-- Characters matched by the key part `[a-zA-Z-]` of the attribute regex. -/
def isKeyChar (c : Char) : Bool :=
  c.isAlpha || c = '-'

/-- Fuelled scanner for the attribute regex; every recursive call strictly
shrinks the character list, so fuel equal to the list length never runs
out. -/
def scanAttrsF : Nat → List Char → List (String × String)
  | 0, _ => []
  | _, [] => []
  | fuel + 1, c :: rest =>
    if isKeyChar c then
      match rest.dropWhile isKeyChar with
      | '=' :: '"' :: tail =>
        if tail.any (· = '"') then
          ((c :: rest.takeWhile isKeyChar).asString, (tail.takeWhile (· ≠ '"')).asString)
            :: scanAttrsF fuel ((tail.dropWhile (· ≠ '"')).drop 1)
        else []
      | after => scanAttrsF fuel after
    else scanAttrsF fuel rest

/-- All successive matches of the attribute regex `([a-zA-Z-]+)="([^"]*)"`
over the line, as (key, value) pairs, in match order.  A match is a maximal
run of key characters immediately followed by `="`, with a closing quote
somewhere after; scanning resumes after the closing quote. -/
def scanAttrs (l : List Char) : List (String × String) :=
  scanAttrsF l.length l

/-- The `switch (key.toLowerCase())` body of `parseExtInf`. -/
def applyAttr (ch : Channel) (kv : String × String) : Channel :=
  match jsToLower kv.1 with
  | "tvg-logo" => { ch with logo := kv.2 }
  | "tvg-name" => { ch with tvgName := kv.2 }
  | "tvg-id" => { ch with tvgId := kv.2 }
  | "group-title" => { ch with group := if kv.2 = "" then "Uncategorized" else kv.2 }
  | "tvg-language" => { ch with language := kv.2 }
  | "tvg-country" => { ch with country := kv.2 }
  | _ => ch

/-- The capture of `line.match(/,(.+)$/)`: the text after the first comma that
is followed by at least one character, or `none` when no such comma exists. -/
def afterFirstComma : List Char → Option (List Char)
  | [] => none
  | ',' :: rest => if rest.isEmpty then none else some rest
  | _ :: rest => afterFirstComma rest

/-- Embedding of `M3UParser.parseExtInf`. -/
def parseExtInf (line : String) : Channel :=
  let ch0 : Channel := {}
  let ch1 := (scanAttrs line.toList).foldl applyAttr ch0
  let ch2 :=
    match afterFirstComma line.toList with
    | some cs => { ch1 with name := jsTrim cs.asString }
    | none => ch1
  if ch2.name = "Unknown Channel" ∧ ch2.tvgName ≠ "" then
    { ch2 with name := ch2.tvgName }
  else ch2

/-! ### `M3UParser.generateId` -/

/-- Coerce an integer to a 32-bit signed value, as the JS bitwise operators
(`<<`, `&`) do. -/
def toInt32 (n : Int) : Int :=
  let m := n % 4294967296
  if m ≥ 2147483648 then m - 4294967296 else m

/-- One step of the rolling hash `hash = ((hash << 5) - hash) + char;
hash = hash & hash`. -/
def hashStep (h : Int) (code : Nat) : Int :=
  toInt32 (toInt32 (h * 32) - h + code)

/-- Digit character for base-36 rendering (`0`-`9`, `a`-`z`). -/
def base36Digit (n : Nat) : Char :=
  if n < 10 then Char.ofNat (48 + n) else Char.ofNat (87 + n)

/-- Fuelled big-endian base-36 digits accumulator; the value shrinks by a
factor of 36 each step, so fuel equal to the value never runs out. -/
def toBase36F : Nat → Nat → List Char → List Char
  | 0, _, acc => acc
  | _, 0, acc => acc
  | fuel + 1, n + 1, acc => toBase36F fuel ((n + 1) / 36) (base36Digit ((n + 1) % 36) :: acc)

/-- JS `n.toString(36)` for a non-negative number. -/
def toBase36 (n : Nat) : String :=
  if n = 0 then "0" else (toBase36F n n []).asString

/-- Embedding of `M3UParser.generateId`: rolling 32-bit hash of `name + url`
rendered as `ch_` plus base-36 of the absolute value.  (JS hashes UTF-16 code
units; the model hashes code points, which coincide on the BMP.) -/
def generateId (ch : Channel) : String :=
  let str := ch.name ++ ch.url
  let h := str.toList.foldl (fun h c => hashStep h c.toNat) 0
  "ch_" ++ toBase36 h.natAbs

/-! ### `M3UParser.parse` -/

/-- The line loop of `parse`: a pending-channel accumulator; `#EXTINF:` lines
start a pending channel, `http` lines complete it. -/
def parseLines : List String → Option Channel → List Channel
  | [], _ => []
  | line :: rest, cur =>
    if line = "" then parseLines rest cur
    else if jsStartsWith line "#EXTINF:" then parseLines rest (some (parseExtInf line))
    else if jsStartsWith line "http" then
      match cur with
      | some ch =>
        let ch := { ch with url := line }
        { ch with id := generateId ch } :: parseLines rest none
      | none => parseLines rest none
    else parseLines rest cur

/-- Embedding of `M3UParser.parse`: split on newlines, trim each line, run the
accumulator loop. -/
def parse (content : String) : List Channel :=
  parseLines ((splitNl content.toList).map (fun l => jsTrim l.asString)) none

/-! ### `M3UParser.search` -/

/-- The search term the code computes: `query.toLowerCase().trim()`. -/
def searchTerm (query : String) : String :=
  jsTrim (jsToLower query)

/-- Embedding of `M3UParser.search`.  Note the guards on `country` and
`language`: JS `channel.country && ...` short-circuits on the empty string. -/
def search (channels : List Channel) (query : String) : List Channel :=
  if jsTrim query = "" then []
  else
    let t := searchTerm query
    channels.filter fun ch =>
      jsIncludes (jsToLower ch.name) t ||
      jsIncludes (jsToLower ch.group) t ||
      (ch.country ≠ "" && jsIncludes (jsToLower ch.country) t) ||
      (ch.language ≠ "" && jsIncludes (jsToLower ch.language) t)

/-! ### `M3UParser.fetchPlaylist`

The transport collaborator is a function from a URL to either a thrown error
message (`Except.error`) or an HTTP response; `encodeURIComponent` is an
external browser primitive and is likewise passed in.  Alongside its result,
the embedding returns the ordered list of URLs handed to `fetch`, so that the
strategy order is a provable property. -/

/-- An HTTP response as the code consumes it: the `ok` flag, the status code
and the body text. -/
structure JsResponse where
  ok : Bool
  status : Nat
  body : String

/-- The `CORS_PROXIES` constant: two proxy prefixes, then the empty prefix
meaning a direct request. -/
def CORS_PROXIES : List String :=
  ["https://corsproxy.io/?", "https://api.allorigins.win/raw?url=", ""]

/-- The URL a proxy-list entry makes the code fetch:
`fetch(proxy ? proxy + encodeURIComponent(url) : url)`. -/
def proxyTarget (enc : String → String) (url proxy : String) : String :=
  if proxy ≠ "" then proxy ++ enc url else url

/-- The `for (const proxy of this.CORS_PROXIES)` loop.  Returns the parsed
channels of the first strategy that yields an ok response with at least one
channel (if any), the final `lastError` value, and the trace of fetched URLs.
A thrown fetch error or a non-ok response (which throws
`HTTP error! status: ...`) is caught and recorded in `lastError`; an ok
response parsing to zero channels is skipped without touching `lastError`. -/
def tryProxies (fetch : String → Except String JsResponse) (enc : String → String)
    (url : String) : List String → Option String →
    Option (List Channel) × Option String × List String
  | [], lastErr => (none, lastErr, [])
  | proxy :: rest, lastErr =>
    let target := proxyTarget enc url proxy
    match fetch target with
    | .error e =>
      let r := tryProxies fetch enc url rest (some e)
      (r.1, r.2.1, target :: r.2.2)
    | .ok resp =>
      if !resp.ok then
        let r := tryProxies fetch enc url rest (some ("HTTP error! status: " ++ toString resp.status))
        (r.1, r.2.1, target :: r.2.2)
      else
        let channels := parse resp.body
        if 0 < channels.length then (some channels, lastErr, [target])
        else
          let r := tryProxies fetch enc url rest lastErr
          (r.1, r.2.1, target :: r.2.2)

/-- The PHP relay endpoint attempt at the bottom of `fetchPlaylist`: its own
errors are caught and only logged, and a non-ok response or an empty parse is
ignored. -/
def phpAttempt (fetch : String → Except String JsResponse) (enc : String → String)
    (url : String) : Option (List Channel) :=
  match fetch ("php/proxy.php?url=" ++ enc url) with
  | .error _ => none
  | .ok resp =>
    if resp.ok then
      let channels := parse resp.body
      if 0 < channels.length then some channels else none
    else none

/-- Embedding of `M3UParser.fetchPlaylist`: cache short-circuit, the proxy
loop, the PHP relay, and finally `throw lastError || new Error('Failed to
fetch playlist')`.  The second component is the ordered trace of fetched
URLs. -/
def fetchPlaylist (fetch : String → Except String JsResponse) (enc : String → String)
    (cached : Option (List Channel)) (url : String) :
    Except String (List Channel) × List String :=
  if 0 < (cached.getD []).length then (.ok (cached.getD []), [])
  else
    match tryProxies fetch enc url CORS_PROXIES none with
    | (some channels, _, tr) => (.ok channels, tr)
    | (none, lastErr, tr) =>
      match phpAttempt fetch enc url with
      | some channels => (.ok channels, tr ++ ["php/proxy.php?url=" ++ enc url])
      | none => (.error (lastErr.getD "Failed to fetch playlist"),
                 tr ++ ["php/proxy.php?url=" ++ enc url])

/-- The full ordered list of strategy URLs the code can attempt: the three
`CORS_PROXIES` entries (the proxies first, the direct request third), then
the PHP relay endpoint. -/
def strategyUrls (enc : String → String) (url : String) : List String :=
  CORS_PROXIES.map (proxyTarget enc url) ++ ["php/proxy.php?url=" ++ enc url]

/-- A strategy URL succeeds when fetching it yields an ok response whose body
parses into at least one channel. -/
def succeeds (fetch : String → Except String JsResponse) (u : String) : Bool :=
  match fetch u with
  | .error _ => false
  | .ok resp => resp.ok && 0 < (parse resp.body).length

/-- The error a strategy attempt throws, if any: the fetch error itself, or
the synthesized `HTTP error! status: ...` for a non-ok response. -/
def thrownError (fetch : String → Except String JsResponse) (u : String) : Option String :=
  match fetch u with
  | .error e => some e
  | .ok resp => if resp.ok then none else some ("HTTP error! status: " ++ toString resp.status)

/-- The prefix of a list up to and including the first element satisfying
`p` (the whole list when none does). -/
def takeThrough (p : α → Bool) : List α → List α
  | [] => []
  | a :: as => if p a then [a] else a :: takeThrough p as

/-! ### The `Navigation` object

Focusable elements are opaque handles, modelled as `Nat`.  JS array reads out
of range yield `undefined` (`Option.none`); reading `.length` of `undefined`,
or indexing into it, throws a `TypeError`, which operations below surface as
`Option.none` at the call level. -/

/-- JS `a[i]` for a possibly negative or out-of-range index: `undefined`
(`none`) instead of an error. -/
def jsIndex (l : List α) (i : Int) : Option α :=
  if i < 0 then none else l.get? i.toNat

/-- The mutable fields of the `Navigation` object that the claims concern. -/
structure NavState where
  focusedElement : Option Nat
  focusHistory : List (Nat × String)
  grid : List (List Nat)
  currentRow : Int
  currentCol : Int
  currentSection : String
  isPlayerActive : Bool
deriving DecidableEq, Repr

/-- Embedding of `Navigation.setFocus` (the `classList` and scroll side
effects live on the external surface). -/
def setFocus (e : Nat) (s : NavState) : NavState :=
  { s with focusedElement := some e }

/-- The linear search in `navigate`: the first grid position holding the
element (`indexOf` returns the first column index within the row). -/
def findPos (e : Nat) : List (List Nat) → Option (Nat × Nat)
  | [] => none
  | r :: rs =>
    if e ∈ r then some (0, r.findIdx (· == e))
    else (findPos e rs).map (fun rc => (rc.1 + 1, rc.2))

/-- A navigation direction. -/
inductive Direction
  | up | down | left | right
deriving DecidableEq, Repr

/-- The tail of each `navigate` branch: commit the new cursor, then focus
`nextEl` when it is defined and differs from the current focus. -/
def moveFocus (s : NavState) (r c : Int) (nextEl : Option Nat) : NavState :=
  let s := { s with currentRow := r, currentCol := c }
  match nextEl with
  | none => s
  | some e => if s.focusedElement = some e then s else setFocus e s

/-- Embedding of `Navigation.navigate`.  `rebuilt` is the grid that
`updateFocusableElements` would read off the live surface, used when the
stored grid is empty.  The result is `none` exactly when the JS code throws a
`TypeError` (indexing through an `undefined` row fetched with an out-of-range
stored `currentRow`). -/
def navigate (rebuilt : List (List Nat)) (dir : Direction) (s0 : NavState) :
    Option NavState :=
  let s1 := if s0.grid.isEmpty then { s0 with grid := rebuilt } else s0
  if s1.grid.isEmpty then some s1
  else
    let s :=
      match s1.focusedElement with
      | none => s1
      | some e =>
        match findPos e s1.grid with
        | some rc => { s1 with currentRow := (rc.1 : Int), currentCol := (rc.2 : Int) }
        | none => s1
    match dir with
    | .up =>
      if 0 < s.currentRow then
        let r := s.currentRow - 1
        match jsIndex s.grid r with
        | none => none
        | some row =>
          let c := min s.currentCol ((row.length : Int) - 1)
          some (moveFocus s r c (jsIndex row c))
      else some s
    | .down =>
      if s.currentRow < (s.grid.length : Int) - 1 then
        let r := s.currentRow + 1
        match jsIndex s.grid r with
        | none => none
        | some row =>
          let c := min s.currentCol ((row.length : Int) - 1)
          some (moveFocus s r c (jsIndex row c))
      else some s
    | .left =>
      if 0 < s.currentCol then
        let c := s.currentCol - 1
        match jsIndex s.grid s.currentRow with
        | none => none
        | some row => some (moveFocus s s.currentRow c (jsIndex row c))
      else if 0 < s.currentRow then
        let r := s.currentRow - 1
        match jsIndex s.grid r with
        | none => none
        | some row =>
          let c := (row.length : Int) - 1
          some (moveFocus s r c (jsIndex row c))
      else some s
    | .right =>
      match jsIndex s.grid s.currentRow with
      | none => none
      | some row =>
        if s.currentCol < (row.length : Int) - 1 then
          let c := s.currentCol + 1
          some (moveFocus s s.currentRow c (jsIndex row c))
        else if s.currentRow < (s.grid.length : Int) - 1 then
          let r := s.currentRow + 1
          match jsIndex s.grid r with
          | none => none
          | some row2 => some (moveFocus s r 0 (jsIndex row2 0))
        else some s

/-- Embedding of `Navigation.select`: click the focused element (an external
side effect), push `(element, currentSection)` onto the history, and shift
the oldest entry off the front when the length exceeds 20. -/
def select (s : NavState) : NavState :=
  match s.focusedElement with
  | none => s
  | some e =>
    let h := s.focusHistory ++ [(e, s.currentSection)]
    let h := if 20 < h.length then h.drop 1 else h
    { s with focusHistory := h }

/-- Names the repository's scripts assign on `window`.  The parser script
assigns `window.M3UParser` and `window.Navigation`; neither the app script
nor the player script exports its object (`App` and `Player` are top-level
`const` bindings, which do not become `window` properties). -/
def windowExports : List String :=
  ["M3UParser", "Navigation"]

/-- Method names the `Player` object defines (player module source).  There
is no method named `close`; closing is `closePlayer`. -/
def playerMethods : List String :=
  ["init", "setupVideoListeners", "setupControls", "setupKeyboardShortcuts", "play",
   "togglePlayPause", "toggleMute", "setVolume", "changeVolume", "seek", "skip",
   "toggleFullscreen", "closePlayer", "updatePlayButton", "updateVolumeButton",
   "updateProgressBar", "updateDuration", "updateVolumeDisplay", "showControls",
   "hideControls", "showPlayerError", "formatTime"]

/-- Method names the `App` object defines (`src/js/app.js`).  There is no
method named `showSection`; section switching is `switchSection`. -/
def appMethods : List String :=
  ["init", "initStorage", "setupUIListeners", "loadChannels", "renderChannels",
   "playChannel", "toggleFavorite", "switchSection", "handlePlaylistUpload",
   "handlePlaylistUrlInput", "setupChannelRefresh", "showApp", "showError",
   "showMessage"]

/-- Does `window.obj.meth(...)` resolve?  It throws unless `obj` is exported
on `window` and defines a method named `meth`. -/
def windowCallOk (methods : List String) (obj meth : String) : Bool :=
  windowExports.contains obj && methods.contains meth

/-- Embedding of `Navigation.back`.  `docContains` models
`document.contains`.  The result is `none` when the JS code throws: the
player branch calls `window.Player.close()` and the section branch calls
`window.App.showSection('home')`, and neither callee exists.  The `some`
payloads of those branches model what the intended calls would have done. -/
def back (docContains : Nat → Bool) (s : NavState) : Option NavState :=
  if s.isPlayerActive then
    if windowCallOk playerMethods "Player" "close" then some s else none
  else if s.currentSection ≠ "home" then
    if windowCallOk appMethods "App" "showSection" then
      some { s with currentSection := "home" }
    else none
  else
    match s.focusHistory.getLast? with
    | none => some s
    | some (e, _) =>
      let st := { s with focusHistory := s.focusHistory.dropLast }
      if docContains e then some (setFocus e st) else some st

/-- A user intent delivered to the engine (for history-invariant statements).
A thrown `TypeError` escapes the key handler before any history mutation, so
running an operation that throws leaves the state as it was. -/
inductive NavOp
  | doSelect
  | doBack
deriving DecidableEq, Repr

/-- Run a sequence of select/back intents against the engine state. -/
def runOps (docContains : Nat → Bool) : List NavOp → NavState → NavState
  | [], s => s
  | .doSelect :: rest, s => runOps docContains rest (select s)
  | .doBack :: rest, s => runOps docContains rest ((back docContains s).getD s)

/-! ### `Navigation.updateFocusableElements` (the grid builder)

A candidate focus target is its bounding geometry (`getBoundingClientRect`)
plus an identity.  The JS code computes `row = Math.floor(rect.top / 80)` and
assigns `grid[row]`.  On a JS array, assignment at a non-negative index `k`
makes the array length at least `k + 1`; assignment at a negative index
creates a non-index property that `Array.prototype.filter` never visits.  So
the built grid is: for each band index `0 ≤ n < maxBand`, the bucket of
targets with that band (in DOM order), sorted stably by `left`; empty buckets
(holes) are dropped by `filter(row => row && row.length > 0)`. -/

/-- A candidate focus target with its bounding geometry. -/
structure Target where
  id : Nat
  top : Int
  left : Int
deriving DecidableEq, Repr

/-- `Math.floor(rect.top / 80)`: floor division of the top coordinate. -/
def bandIdx (t : Target) : Int :=
  Int.fdiv t.top 80

/-- The targets assigned to band `n`, in their original (DOM) order. -/
def bucket (ts : List Target) (n : Nat) : List Target :=
  ts.filter fun t => bandIdx t = (n : Int)

/-- One bucketing step's effect on the JS array length: an assignment at
non-negative index `n` raises the length to at least `n + 1`; a negative
index leaves it unchanged. -/
def bandStep (m : Nat) (t : Target) : Nat :=
  match bandIdx t with
  | Int.ofNat n => Nat.max m (n + 1)
  | Int.negSucc _ => m

/-- The length of the JS `grid` array after the bucketing loop: one more than
the largest non-negative band index assigned (0 when none is). -/
def maxBand (ts : List Target) : Nat :=
  ts.foldl bandStep 0

/-- Row-internal order: `row.sort((a, b) => rectA.left - rectB.left)`. -/
def leftLe (a b : Target) : Prop :=
  a.left ≤ b.left

instance : DecidableRel leftLe := fun a b => inferInstanceAs (Decidable (a.left ≤ b.left))

instance : IsTotal Target leftLe := ⟨fun a b => le_total a.left b.left⟩

instance : IsTrans Target leftLe := ⟨fun _ _ _ hab hbc => le_trans hab hbc⟩

/-- Embedding of `Navigation.updateFocusableElements` restricted to its pure
content: from the in-scope targets (in DOM order) to the navigation grid. -/
def updateFocusableElements (ts : List Target) : List (List Target) :=
  ((List.range (maxBand ts)).map fun n => List.insertionSort leftLe (bucket ts n)).filter
    fun row => !row.isEmpty

/-- Two targets land in the same row of a grid. -/
def sameRow (grid : List (List Target)) (a b : Target) : Prop :=
  ∃ row ∈ grid, a ∈ row ∧ b ∈ row

/-! ## Helper lemmas -/

theorem isJsWS_jsCharToLower (c : Char) : isJsWS (jsCharToLower c) = isJsWS c := by
  unfold jsCharToLower
  split <;> rfl

theorem dropWhile_map_lower (l : List Char) :
    (l.map jsCharToLower).dropWhile isJsWS = (l.dropWhile isJsWS).map jsCharToLower := by
  rw [List.dropWhile_map]
  have hws : (isJsWS ∘ jsCharToLower) = isJsWS := by
    funext c
    simp [Function.comp, isJsWS_jsCharToLower]
  rw [hws]

theorem trimChars_map_lower (l : List Char) :
    trimChars (l.map jsCharToLower) = (trimChars l).map jsCharToLower := by
  unfold trimChars
  rw [dropWhile_map_lower, ← List.map_reverse, dropWhile_map_lower, ← List.map_reverse]

theorem asString_eq_empty_iff (l : List Char) : l.asString = "" ↔ l = [] := by
  constructor
  · intro h
    simpa using congrArg String.toList h
  · intro h
    subst h
    rfl

theorem searchTerm_eq_empty_iff (q : String) : searchTerm q = "" ↔ jsTrim q = "" := by
  unfold searchTerm jsTrim jsToLower
  rw [show ((q.toList.map jsCharToLower).asString).toList = q.toList.map jsCharToLower from rfl,
    trimChars_map_lower, asString_eq_empty_iff, asString_eq_empty_iff, List.map_eq_nil_iff]

theorem jsIncludes_empty_left (t : String) (h : t ≠ "") : jsIncludes "" t = false := by
  unfold jsIncludes
  simp only [decide_eq_false_iff_not]
  intro hinf
  have hnil : t.toList = [] := List.infix_nil.mp hinf
  exact h (String.ext hnil)

theorem jsToLower_empty : jsToLower "" = "" := rfl

theorem applyAttr_name (ch : Channel) (kv : String × String) :
    (applyAttr ch kv).name = ch.name := by
  unfold applyAttr
  split <;> rfl

theorem foldl_applyAttr_name (attrs : List (String × String)) (ch : Channel) :
    (attrs.foldl applyAttr ch).name = ch.name := by
  induction attrs generalizing ch with
  | nil => rfl
  | cons kv rest ih => rw [List.foldl_cons, ih, applyAttr_name]

theorem parseExtInf_tvgName (line : String) :
    (parseExtInf line).tvgName = ((scanAttrs line.toList).foldl applyAttr {}).tvgName := by
  unfold parseExtInf
  cases afterFirstComma line.toList <;> dsimp only [] <;> split <;> rfl

/-! ## Claims -/

/-- C1 (code bug): in `PlayerOverlay` mode (`isPlayerActive = true`), `back()`
does not exit playback — it throws a `TypeError`, because it calls
`window.Player.close()` and no `close` method exists anywhere (the player
module defines `closePlayer`, and never exports `window.Player` at all).
This holds for every focus history and every current section. -/
theorem back_player_mode_throws (docContains : Nat → Bool) (s : NavState)
    (h : s.isPlayerActive = true) : back docContains s = none := by
  unfold back
  rw [h]
  rfl

/-- Witness for `back_player_mode_throws` at a concrete state. -/
theorem back_player_mode_throws_witness :
    back (fun _ => true)
      { focusedElement := none, focusHistory := [(3, "home")], grid := [[3]],
        currentRow := 0, currentCol := 0, currentSection := "home",
        isPlayerActive := true } = none :=
  back_player_mode_throws (fun _ => true) _ rfl

/-- C2 (code bug): the navigation operations are not exception-free.
`navigate('right')` throws a `TypeError` when the stored `currentRow`
fallback is outside the grid (here: one row, stored `currentRow = 1`, focus
lost), because `this.grid[this.currentRow].length` reads `.length` of
`undefined`; and `back()` throws away from the home section because
`window.App.showSection` does not exist (the app object defines
`switchSection` and is never exported on `window`). -/
theorem navigation_ops_throw :
    navigate [] .right
      { focusedElement := none, focusHistory := [], grid := [[0]],
        currentRow := 1, currentCol := 0, currentSection := "home",
        isPlayerActive := false } = none ∧
    back (fun _ => true)
      { focusedElement := none, focusHistory := [], grid := [],
        currentRow := 0, currentCol := 0, currentSection := "search",
        isPlayerActive := false } = none :=
  ⟨rfl, rfl⟩

/-- C4 (counterexample): on the metadata line `#EXTINF:-1,News, Weather` the
code's channel name is `"News, Weather"` — the text after the *first* comma
— not the text after the *last* comma (`"Weather"`, or untrimmed
`" Weather"`), as the claim states. -/
theorem parseExtInf_last_comma_cex :
    (parseExtInf "#EXTINF:-1,News, Weather").name = "News, Weather" ∧
    (parseExtInf "#EXTINF:-1,News, Weather").name ≠ "Weather" ∧
    (parseExtInf "#EXTINF:-1,News, Weather").name ≠ " Weather" :=
  ⟨rfl, by decide, by decide⟩

/-- C4 (amended): the parsed name is the trimmed text after the *first* comma
that has at least one character after it (even when that trim yields the
empty string), except that when this text is exactly `"Unknown Channel"` the
non-empty `tvg-name` attribute takes over; when no such comma exists, the
name is the `tvg-name` attribute when non-empty, else the literal
`"Unknown Channel"`. -/
theorem parseExtInf_name_resolution (line : String) :
    (parseExtInf line).name =
      match afterFirstComma line.toList with
      | some cs =>
        if jsTrim cs.asString = "Unknown Channel" then
          if (parseExtInf line).tvgName ≠ "" then (parseExtInf line).tvgName
          else "Unknown Channel"
        else jsTrim cs.asString
      | none =>
        if (parseExtInf line).tvgName ≠ "" then (parseExtInf line).tvgName
        else "Unknown Channel" := by
  have htvg := parseExtInf_tvgName line
  have hname : ((scanAttrs line.toList).foldl applyAttr {}).name = "Unknown Channel" :=
    foldl_applyAttr_name _ _
  unfold parseExtInf at htvg ⊢
  cases hc : afterFirstComma line.toList with
  | none =>
    simp only [hc] at htvg ⊢
    by_cases ht : ((scanAttrs line.toList).foldl applyAttr {}).tvgName = "" <;>
      simp_all
  | some cs =>
    simp only [hc] at htvg ⊢
    by_cases ht : ((scanAttrs line.toList).foldl applyAttr {}).tvgName = "" <;>
      by_cases hn : jsTrim cs.asString = "Unknown Channel" <;>
        simp_all

theorem select_history_le (s : NavState) (h : s.focusHistory.length ≤ 20) :
    (select s).focusHistory.length ≤ 20 := by
  unfold select
  cases hf : s.focusedElement with
  | none => simpa using h
  | some e =>
    simp only []
    split
    · rename_i hgt
      simp only [List.length_append, List.length_cons, List.length_nil] at hgt
      simp only [List.length_drop, List.length_append, List.length_cons, List.length_nil]
      omega
    · rename_i hle
      simp only [List.length_append, List.length_cons, List.length_nil] at hle ⊢
      omega

theorem back_history_le (docContains : Nat → Bool) (s s' : NavState)
    (hb : back docContains s = some s') :
    s'.focusHistory.length ≤ s.focusHistory.length := by
  unfold back at hb
  split at hb
  · split at hb
    · cases hb
      exact le_refl _
    · exact absurd hb (by simp)
  · split at hb
    · split at hb
      · cases hb
        exact le_refl _
      · exact absurd hb (by simp)
    · split at hb
      · cases hb
        exact le_refl _
      · rename_i e sec _heq
        split at hb <;> cases hb <;>
          simp [setFocus, List.length_dropLast]

theorem runOps_history_le (docContains : Nat → Bool) (ops : List NavOp) (s : NavState)
    (h : s.focusHistory.length ≤ 20) :
    (runOps docContains ops s).focusHistory.length ≤ 20 := by
  induction ops generalizing s with
  | nil => exact h
  | cons op rest ih =>
    cases op with
    | doSelect => exact ih _ (select_history_le s h)
    | doBack =>
      show (runOps docContains rest ((back docContains s).getD s)).focusHistory.length ≤ 20
      cases hb : back docContains s with
      | none => exact ih _ (by simpa using h)
      | some s' => exact ih _ (by simpa using le_trans (back_history_le docContains s s' hb) h)

/-- C6: after any sequence of `select`/`back` intents from a state whose
focus history is within the 20-entry bound, the history stays within the
bound; and a `select` that would make it 21 entries evicts the oldest
(front) entry, keeping the 20 most recent in order, with the new entry
appended at the top. -/
theorem focusHistory_bounded (docContains : Nat → Bool) (ops : List NavOp) (s : NavState)
    (h : s.focusHistory.length ≤ 20) :
    (runOps docContains ops s).focusHistory.length ≤ 20 ∧
    (s.focusHistory.length = 20 → ∀ e, s.focusedElement = some e →
      (select s).focusHistory = s.focusHistory.tail ++ [(e, s.currentSection)]) := by
  refine ⟨runOps_history_le docContains ops s h, fun h20 e hf => ?_⟩
  unfold select
  rw [hf]
  simp only []
  rw [if_pos (by simp [List.length_append, h20])]
  rw [List.drop_append_of_le_length (by omega), List.drop_one]

/-- Witness for `focusHistory_bounded` at a concrete 20-entry history. -/
theorem focusHistory_bounded_witness :
    (runOps (fun _ => true) [NavOp.doSelect, NavOp.doBack]
        { focusedElement := some 99,
          focusHistory := (List.range 20).map fun n => (n, "home"),
          grid := [[99]], currentRow := 0, currentCol := 0,
          currentSection := "home", isPlayerActive := false }).focusHistory.length ≤ 20 ∧
    (((List.range 20).map fun n => ((n : Nat), "home")).length = 20 →
      ∀ e, (some 99 : Option Nat) = some e →
        (select
          { focusedElement := some 99,
            focusHistory := (List.range 20).map fun n => (n, "home"),
            grid := [[99]], currentRow := 0, currentCol := 0,
            currentSection := "home", isPlayerActive := false }).focusHistory =
          ((List.range 20).map fun n => ((n : Nat), "home")).tail ++ [(e, "home")]) :=
  focusHistory_bounded (fun _ => true) [NavOp.doSelect, NavOp.doBack] _ (by decide)

/-- C7: a blank (empty or whitespace-only) query yields the empty result
list; a non-blank query yields exactly the channels one of whose
name/group/country/language contains the lowercased trimmed query as a
substring (the code's guards on empty `country`/`language` fields do not
change the result, since a non-empty term is never a substring of the empty
string). -/
theorem search_spec (channels : List Channel) (query : String) :
    (jsTrim query = "" → search channels query = []) ∧
    (jsTrim query ≠ "" →
      search channels query = channels.filter fun ch =>
        jsIncludes (jsToLower ch.name) (searchTerm query) ||
        jsIncludes (jsToLower ch.group) (searchTerm query) ||
        jsIncludes (jsToLower ch.country) (searchTerm query) ||
        jsIncludes (jsToLower ch.language) (searchTerm query)) := by
  constructor
  · intro h
    unfold search
    rw [if_pos h]
  · intro h
    have ht : searchTerm query ≠ "" := fun hh => h ((searchTerm_eq_empty_iff query).mp hh)
    unfold search
    rw [if_neg h]
    apply List.filter_congr
    intro ch _
    by_cases hc : ch.country = "" <;> by_cases hl : ch.language = "" <;>
      simp [hc, hl, jsToLower_empty, jsIncludes_empty_left _ ht]

/-- Witness for `search_spec` on concrete channels and queries. -/
theorem search_spec_witness :
    search [{ name := "Sport One" }, { name := "News" }] "   " = [] ∧
    search [{ name := "Sport One" }, { name := "News" }] " SPORT" =
      List.filter
        (fun ch =>
          jsIncludes (jsToLower ch.name) (searchTerm " SPORT") ||
          jsIncludes (jsToLower ch.group) (searchTerm " SPORT") ||
          jsIncludes (jsToLower ch.country) (searchTerm " SPORT") ||
          jsIncludes (jsToLower ch.language) (searchTerm " SPORT"))
        [{ name := "Sport One" }, { name := "News" }] :=
  ⟨(search_spec _ "   ").1 (by decide), (search_spec _ " SPORT").2 (by decide)⟩

theorem jsIndex_natCast (l : List α) (n : Nat) : jsIndex l (n : Int) = l.get? n := by
  unfold jsIndex
  rw [if_neg (by omega), Int.toNat_natCast]

theorem findPos_spec {e : Nat} {g : List (List Nat)} {r c : Nat}
    (h : findPos e g = some (r, c)) :
    ∃ row, g.get? r = some row ∧ e ∈ row ∧ c = row.findIdx (· == e) := by
  induction g generalizing r c with
  | nil => cases h
  | cons hd tl ih =>
    unfold findPos at h
    split at h
    · rename_i hmem
      cases h
      exact ⟨hd, rfl, hmem, rfl⟩
    · obtain ⟨⟨r', c'⟩, hfp, heq⟩ := Option.map_eq_some'.mp h
      cases heq
      obtain ⟨row, hget, hm, hi⟩ := ih hfp
      exact ⟨row, by simpa using hget, hm, hi⟩

/-- C5: with the focused element found at the last column of row `r` of the
grid, `navigate('right')` wraps to column 0 of row `r + 1` when that row
exists (its head becomes focused, the cursor becomes `(r + 1, 0)`, the grid
is untouched); and when `r` is the final row (and the stored cursor already
sits at that position) the call is a complete no-op: the state is returned
unchanged. -/
theorem navigate_right_spec (rebuilt : List (List Nat)) (s : NavState) (e : Nat)
    (r c : Nat) (row : List Nat)
    (hfoc : s.focusedElement = some e)
    (hfind : findPos e s.grid = some (r, c))
    (hrow : s.grid.get? r = some row)
    (hc : c = row.length - 1) :
    (∀ nextRow, s.grid.get? (r + 1) = some nextRow → nextRow ≠ [] →
      ∃ s', navigate rebuilt .right s = some s' ∧
        s'.focusedElement = nextRow.head? ∧
        s'.currentRow = (r : Int) + 1 ∧ s'.currentCol = 0 ∧ s'.grid = s.grid) ∧
    (r = s.grid.length - 1 → s.currentRow = (r : Int) → s.currentCol = (c : Int) →
      navigate rebuilt .right s = some s) := by
  have hge : s.grid ≠ [] := fun hnil => by rw [hnil] at hrow; cases hrow
  have hie : s.grid.isEmpty = false := by
    cases hgr : s.grid
    · exact absurd hgr hge
    · rfl
  obtain ⟨row', hrow', hmem, _⟩ := findPos_spec hfind
  have hrr : row' = row := Option.some.inj (hrow' ▸ hrow)
  rw [hrr] at hmem
  have hlen : 1 ≤ row.length := List.length_pos.mpr (List.ne_nil_of_mem hmem)
  have hnotlt : ¬((c : Int) < (row.length : Int) - 1) := by omega
  constructor
  · intro nextRow hnext hne
    obtain ⟨hr1, -⟩ := List.get?_eq_some.mp hnext
    have hcast : (r : Int) + 1 = ((r + 1 : Nat) : Int) := by push_cast; ring
    have hnav : navigate rebuilt .right s =
        some (moveFocus { s with currentRow := (r : Int), currentCol := (c : Int) }
          ((r : Int) + 1) 0 (jsIndex nextRow 0)) := by
      simp only [navigate, hie, Bool.false_eq_true, if_false, hfoc, hfind, jsIndex_natCast,
        hrow]
      rw [if_neg hnotlt, if_pos (by omega : ((r : Int) : Int) < ((s.grid.length : Int)) - 1),
        hcast, jsIndex_natCast, hnext]
    obtain ⟨h0, hh0⟩ : ∃ h0, nextRow.head? = some h0 := by
      cases nextRow
      · exact absurd rfl hne
      · exact ⟨_, rfl⟩
    have hj0 : jsIndex nextRow 0 = some h0 := by
      rw [show ((0 : Int)) = ((0 : Nat) : Int) from rfl, jsIndex_natCast, List.get?_zero, hh0]
    rw [hj0] at hnav
    refine ⟨_, hnav, ?_, ?_, ?_, ?_⟩ <;>
      · unfold moveFocus
        split <;> simp_all [setFocus, hh0]
  · intro hlast hcr hcc
    simp only [navigate, hie, Bool.false_eq_true, if_false, hfoc, hfind, jsIndex_natCast,
      hrow]
    rw [if_neg hnotlt, if_neg (by omega : ¬(((r : Int) : Int) < ((s.grid.length : Int)) - 1)),
      ← hcr, ← hcc, ← hfoc]

/-- Witness for `navigate_right_spec` on a concrete two-row grid. -/
theorem navigate_right_spec_witness :
    ∃ s', navigate [] .right
        { focusedElement := some 2, focusHistory := [], grid := [[1, 2], [3]],
          currentRow := 0, currentCol := 1, currentSection := "home",
          isPlayerActive := false } = some s' ∧
      s'.focusedElement = [3].head? ∧
      s'.currentRow = ((0 : Nat) : Int) + 1 ∧ s'.currentCol = 0 ∧ s'.grid = [[1, 2], [3]] :=
  (navigate_right_spec []
    { focusedElement := some 2, focusHistory := [], grid := [[1, 2], [3]],
      currentRow := 0, currentCol := 1, currentSection := "home",
      isPlayerActive := false } 2 0 1 [1, 2] rfl (by decide) rfl rfl).1 [3] rfl (by decide)

theorem takeThrough_singleton (p : α → Bool) (a : α) : takeThrough p [a] = [a] := by
  unfold takeThrough
  split <;> rfl

theorem takeThrough_append_of_all_false (p : α → Bool) (l₁ l₂ : List α)
    (h : ∀ a ∈ l₁, p a = false) :
    takeThrough p (l₁ ++ l₂) = l₁ ++ takeThrough p l₂ := by
  induction l₁ with
  | nil => rfl
  | cons a rest ih =>
    simp only [List.cons_append, takeThrough, h a (by simp)]
    simp only [Bool.false_eq_true, if_false, List.cons.injEq, true_and]
    exact ih fun x hx => h x (by simp [hx])

theorem takeThrough_append_of_found (p : α → Bool) (l₁ l₂ : List α)
    (h : ∃ a ∈ l₁, p a = true) :
    takeThrough p (l₁ ++ l₂) = takeThrough p l₁ := by
  induction l₁ with
  | nil => simp at h
  | cons a rest ih =>
    simp only [List.cons_append, takeThrough]
    by_cases ha : p a = true
    · rw [if_pos ha, if_pos ha]
    · have hex : ∃ x ∈ rest, p x = true := by
        obtain ⟨x, hx, hpx⟩ := h
        rcases List.mem_cons.mp hx with rfl | hx
        · exact absurd hpx ha
        · exact ⟨x, hx, hpx⟩
      rw [if_neg ha, if_neg ha, show rest.append l₂ = rest ++ l₂ from rfl, ih hex]

theorem getLast?_cons_or (x : α) (l : List α) (le0 : Option α) :
    (l.getLast?).or (some x) = ((x :: l).getLast?).or le0 := by
  cases l with
  | nil => rfl
  | cons y ys =>
    rw [List.getLast?_cons_cons]
    cases hg : (y :: ys).getLast? with
    | none => exact absurd (List.getLast?_eq_none_iff.mp hg) (by simp)
    | some z => rfl

theorem phpAttempt_eq_none (fetch : String → Except String JsResponse)
    (enc : String → String) (url : String) :
    phpAttempt fetch enc url = none ↔
      succeeds fetch ("php/proxy.php?url=" ++ enc url) = false := by
  unfold phpAttempt succeeds
  cases fetch ("php/proxy.php?url=" ++ enc url) with
  | error e => simp
  | ok resp =>
    by_cases hok : resp.ok <;> by_cases hlen : 0 < (parse resp.body).length <;>
      simp [hok, hlen]

theorem tryProxies_char (fetch : String → Except String JsResponse) (enc : String → String)
    (url : String) :
    ∀ (ps : List String) (le0 : Option String),
      ((tryProxies fetch enc url ps le0).1 = none →
        (tryProxies fetch enc url ps le0).2.1 =
          (((ps.map (proxyTarget enc url)).filterMap (thrownError fetch)).getLast?).or le0 ∧
        (tryProxies fetch enc url ps le0).2.2 = ps.map (proxyTarget enc url) ∧
        ∀ u ∈ ps.map (proxyTarget enc url), succeeds fetch u = false) ∧
      (∀ cs, (tryProxies fetch enc url ps le0).1 = some cs →
        (tryProxies fetch enc url ps le0).2.2 =
          takeThrough (succeeds fetch) (ps.map (proxyTarget enc url)) ∧
        ∃ u ∈ ps.map (proxyTarget enc url), succeeds fetch u = true) := by
  intro ps
  induction ps with
  | nil =>
    intro le0
    exact ⟨fun _ => ⟨rfl, rfl, by simp⟩, fun cs h => by cases h⟩
  | cons p rest ih =>
    intro le0
    simp only [tryProxies, List.map_cons]
    cases hf : fetch (proxyTarget enc url p) with
    | error e =>
      have hthr : thrownError fetch (proxyTarget enc url p) = some e := by
        unfold thrownError
        rw [hf]
      have hsuc : succeeds fetch (proxyTarget enc url p) = false := by
        unfold succeeds
        rw [hf]
      constructor
      · intro hnone
        obtain ⟨hle, htr, hall⟩ := (ih (some e)).1 hnone
        refine ⟨?_, by simp [htr], ?_⟩
        · rw [hle, List.filterMap_cons, hthr, getLast?_cons_or]
        · intro u hu
          rcases List.mem_cons.mp hu with rfl | hu
          · exact hsuc
          · exact hall u hu
      · intro cs hcs
        obtain ⟨htr, u, hu, hpu⟩ := (ih (some e)).2 cs hcs
        refine ⟨?_, ⟨u, by simp [hu], hpu⟩⟩
        simp only [takeThrough, hsuc, Bool.false_eq_true, if_false]
        simp [htr]
    | ok resp =>
      by_cases hok : resp.ok
      · by_cases hlen : 0 < (parse resp.body).length
        · have hsuc : succeeds fetch (proxyTarget enc url p) = true := by
            unfold succeeds
            rw [hf]
            simp [hok, hlen]
          simp only [hok, Bool.not_true, Bool.false_eq_true, if_false, if_pos hlen]
          constructor
          · intro hnone
            cases hnone
          · intro cs hcs
            cases hcs
            refine ⟨?_, ⟨proxyTarget enc url p, by simp, hsuc⟩⟩
            simp [takeThrough, hsuc]
        · have hthr : thrownError fetch (proxyTarget enc url p) = none := by
            unfold thrownError
            rw [hf]
            simp [hok]
          have hsuc : succeeds fetch (proxyTarget enc url p) = false := by
            unfold succeeds
            rw [hf]
            simp [hok, hlen]
          simp only [hok, Bool.not_true, Bool.false_eq_true, if_false, if_neg hlen]
          constructor
          · intro hnone
            obtain ⟨hle, htr, hall⟩ := (ih le0).1 hnone
            refine ⟨?_, by simp [htr], ?_⟩
            · rw [hle, List.filterMap_cons, hthr]
            · intro u hu
              rcases List.mem_cons.mp hu with rfl | hu
              · exact hsuc
              · exact hall u hu
          · intro cs hcs
            obtain ⟨htr, u, hu, hpu⟩ := (ih le0).2 cs hcs
            refine ⟨?_, ⟨u, by simp [hu], hpu⟩⟩
            simp only [takeThrough, hsuc, Bool.false_eq_true, if_false]
            simp [htr]
      · have hthr : thrownError fetch (proxyTarget enc url p) =
            some ("HTTP error! status: " ++ toString resp.status) := by
          unfold thrownError
          rw [hf]
          simp [hok]
        have hsuc : succeeds fetch (proxyTarget enc url p) = false := by
          unfold succeeds
          rw [hf]
          simp [hok]
        simp only [hok, Bool.not_false, if_true]
        constructor
        · intro hnone
          obtain ⟨hle, htr, hall⟩ :=
            (ih (some ("HTTP error! status: " ++ toString resp.status))).1 hnone
          refine ⟨?_, by simp [htr], ?_⟩
          · rw [hle, List.filterMap_cons, hthr, getLast?_cons_or]
          · intro u hu
            rcases List.mem_cons.mp hu with rfl | hu
            · exact hsuc
            · exact hall u hu
        · intro cs hcs
          obtain ⟨htr, u, hu, hpu⟩ :=
            (ih (some ("HTTP error! status: " ++ toString resp.status))).2 cs hcs
          refine ⟨?_, ⟨u, by simp [hu], hpu⟩⟩
          simp only [takeThrough, hsuc, Bool.false_eq_true, if_false]
          simp [htr]

/-- C3 (counterexample): with every transport attempt failing, the trace of
fetched URLs starts with the first proxy-prefixed URL, not with the direct
playlist URL — the direct request is the *third* strategy (`''` is last in
`CORS_PROXIES`), contradicting the claimed direct-first order. -/
theorem fetchPlaylist_direct_not_first :
    (fetchPlaylist (fun _ => .error "network failure") (fun u => u) none "U").2 =
      ["https://corsproxy.io/?U", "https://api.allorigins.win/raw?url=U", "U",
       "php/proxy.php?url=U"] ∧
    ((fetchPlaylist (fun _ => .error "network failure") (fun u => u) none "U").2).head? ≠
      some "U" :=
  ⟨rfl, by decide⟩

/-- C3 (amended): when the cache yields no non-empty result, the attempted
URLs are exactly the prefix of
`[proxy1 + enc url, proxy2 + enc url, url, php relay]` up to and including
the first strategy whose ok response parses into at least one channel (all
four when none succeeds): the two proxy prefixes come first, the direct
request third, the same-origin relay last. -/
theorem fetchPlaylist_strategy_order (fetch : String → Except String JsResponse)
    (enc : String → String) (cached : Option (List Channel)) (url : String)
    (hc : cached.getD [] = []) :
    (fetchPlaylist fetch enc cached url).2 =
      takeThrough (succeeds fetch) (strategyUrls enc url) := by
  unfold fetchPlaylist
  rw [hc]
  simp only [List.length_nil, lt_irrefl, if_false]
  rcases hres : tryProxies fetch enc url CORS_PROXIES none with ⟨o, le, tr⟩
  have hchar := tryProxies_char fetch enc url CORS_PROXIES none
  rw [hres] at hchar
  dsimp only at hchar
  cases o with
  | some cs =>
    obtain ⟨htr, hex⟩ := hchar.2 cs rfl
    simp only []
    rw [htr, strategyUrls, takeThrough_append_of_found _ _ _ hex]
  | none =>
    obtain ⟨-, htr, hall⟩ := hchar.1 rfl
    have hrest : takeThrough (succeeds fetch) (strategyUrls enc url) =
        CORS_PROXIES.map (proxyTarget enc url) ++ ["php/proxy.php?url=" ++ enc url] := by
      rw [strategyUrls, takeThrough_append_of_all_false _ _ _ hall, takeThrough_singleton]
    cases hphp : phpAttempt fetch enc url <;> simp only [] <;> rw [hrest, htr]

/-- Witness for `fetchPlaylist_strategy_order` with a concrete failing
transport. -/
theorem fetchPlaylist_strategy_order_witness :
    (fetchPlaylist (fun _ => .error "boom") (fun u => u) none "X").2 =
      takeThrough (succeeds fun _ => .error "boom") (strategyUrls (fun u => u) "X") :=
  fetchPlaylist_strategy_order (fun _ => .error "boom") (fun u => u) none "X" rfl

/-- C9 (counterexample): when all four strategies throw (`E1`, `E2`, `E3`
from the proxy-list strategies and `E4` from the PHP relay), the raised
failure carries `E3` — the last error of the proxy-list loop — not the last
underlying strategy error `E4`: the relay's error is logged but never stored
in `lastError`. -/
theorem fetchPlaylist_last_error_cex :
    (fetchPlaylist
        (fun u =>
          if u = "https://corsproxy.io/?U" then .error "E1"
          else if u = "https://api.allorigins.win/raw?url=U" then .error "E2"
          else if u = "U" then .error "E3"
          else .error "E4")
        (fun u => u) none "U").1 = .error "E3" ∧
    ((strategyUrls (fun u => u) "U").filterMap
        (thrownError fun u =>
          if u = "https://corsproxy.io/?U" then .error "E1"
          else if u = "https://api.allorigins.win/raw?url=U" then .error "E2"
          else if u = "U" then .error "E3"
          else .error "E4")).getLast? = some "E4" ∧
    ("E3" : String) ≠ "E4" :=
  ⟨rfl, rfl, by decide⟩

/-- C9 (amended): `fetchPlaylist` raises only once every strategy (the three
proxy-list entries and the PHP relay) has failed or parsed to zero channels,
and the raised message is the last error thrown by the *proxy-list*
strategies, or the generic `Failed to fetch playlist` when none of those
threw — the relay's own error is caught and logged, never carried. -/
theorem fetchPlaylist_exhaustion_spec (fetch : String → Except String JsResponse)
    (enc : String → String) (cached : Option (List Channel)) (url : String)
    (hc : cached.getD [] = []) (m : String)
    (he : (fetchPlaylist fetch enc cached url).1 = .error m) :
    (∀ u ∈ strategyUrls enc url, succeeds fetch u = false) ∧
    m = (((CORS_PROXIES.map (proxyTarget enc url)).filterMap
        (thrownError fetch)).getLast?).getD "Failed to fetch playlist" := by
  unfold fetchPlaylist at he
  rw [hc] at he
  simp only [List.length_nil, lt_irrefl, if_false] at he
  rcases hres : tryProxies fetch enc url CORS_PROXIES none with ⟨o, le, tr⟩
  have hchar := tryProxies_char fetch enc url CORS_PROXIES none
  rw [hres] at hchar
  dsimp only at hchar
  rw [hres] at he
  cases o with
  | some cs => cases he
  | none =>
    obtain ⟨hle, -, hall⟩ := hchar.1 rfl
    cases hphp : phpAttempt fetch enc url with
    | some cs =>
      rw [hphp] at he
      cases he
    | none =>
      rw [hphp] at he
      simp only [Except.error.injEq] at he
      constructor
      · intro u hu
        rw [strategyUrls] at hu
        rcases List.mem_append.mp hu with hu | hu
        · exact hall u hu
        · rw [List.mem_singleton.mp hu]
          exact (phpAttempt_eq_none fetch enc url).mp hphp
      · rw [← he, hle, Option.or_none]

/-- Witness for `fetchPlaylist_exhaustion_spec` with a concrete failing
transport. -/
theorem fetchPlaylist_exhaustion_spec_witness :
    (∀ u ∈ strategyUrls (fun u => u) "Y", succeeds (fun _ => .error "err") u = false) ∧
    "err" = (((CORS_PROXIES.map (proxyTarget (fun u => u) "Y")).filterMap
        (thrownError fun _ => .error "err")).getLast?).getD "Failed to fetch playlist" :=
  fetchPlaylist_exhaustion_spec (fun _ => .error "err") (fun u => u) none "Y" rfl "err" rfl

theorem le_foldl_bandStep (ts : List Target) : ∀ init : Nat, init ≤ ts.foldl bandStep init := by
  induction ts with
  | nil => exact fun init => le_refl init
  | cons hd tl ih =>
    intro init
    refine le_trans ?_ (ih (bandStep init hd))
    unfold bandStep
    cases bandIdx hd with
    | ofNat n => exact Nat.le_max_left _ _
    | negSucc n => exact le_refl _

theorem lt_maxBand_aux (ts : List Target) : ∀ (init : Nat) (t : Target) (n : Nat),
    t ∈ ts → bandIdx t = Int.ofNat n → n < ts.foldl bandStep init := by
  induction ts with
  | nil => intro _ _ _ hmem; cases hmem
  | cons hd tl ih =>
    intro init t n hmem hband
    rcases List.mem_cons.mp hmem with rfl | hmem
    · refine lt_of_lt_of_le ?_ (le_foldl_bandStep tl (bandStep init t))
      unfold bandStep
      rw [hband]
      exact lt_of_lt_of_le (Nat.lt_succ_self n) (Nat.le_max_right _ _)
    · exact ih (bandStep init hd) t n hmem hband

theorem lt_maxBand {ts : List Target} {t : Target} {n : Nat}
    (hmem : t ∈ ts) (hband : bandIdx t = Int.ofNat n) : n < maxBand ts :=
  lt_maxBand_aux ts 0 t n hmem hband

theorem mem_bucket_iff {ts : List Target} {n : Nat} {t : Target} :
    t ∈ bucket ts n ↔ t ∈ ts ∧ bandIdx t = (n : Int) := by
  unfold bucket
  rw [List.mem_filter]
  simp

theorem mem_grid_iff {ts : List Target} {row : List Target} :
    row ∈ updateFocusableElements ts ↔
      ∃ n < maxBand ts, row = List.insertionSort leftLe (bucket ts n) ∧ bucket ts n ≠ [] := by
  unfold updateFocusableElements
  rw [List.mem_filter]
  constructor
  · rintro ⟨hmap, hne⟩
    obtain ⟨n, hn, rfl⟩ := List.mem_map.mp hmap
    refine ⟨n, List.mem_range.mp hn, rfl, fun hnil => ?_⟩
    rw [hnil] at hne
    simp at hne
  · rintro ⟨n, hn, rfl, hne⟩
    refine ⟨List.mem_map.mpr ⟨n, List.mem_range.mpr hn, rfl⟩, ?_⟩
    have : List.insertionSort leftLe (bucket ts n) ≠ [] := by
      intro hnil
      have hperm := List.perm_insertionSort leftLe (bucket ts n)
      rw [hnil] at hperm
      exact hne hperm.symm.eq_nil
    simpa [List.isEmpty_iff]

theorem mem_of_mem_grid_row {ts : List Target} {row : List Target} {n : Nat} {t : Target}
    (hrow : row = List.insertionSort leftLe (bucket ts n)) (hmem : t ∈ row) :
    t ∈ ts ∧ bandIdx t = (n : Int) :=
  mem_bucket_iff.mp ((List.perm_insertionSort leftLe (bucket ts n)).mem_iff.mp (hrow ▸ hmem))

/-- C10: a candidate target whose bounding top coordinate is negative is
silently excluded from the built grid: its band index `floor(top / 80)` is
negative, negative JS array keys are not array indices, and the row filter
never sees them — the target appears in no row. -/
theorem negative_top_excluded (ts : List Target) (t : Target) (ht : t.top < 0) :
    ∀ row ∈ updateFocusableElements ts, t ∉ row := by
  intro row hrow hmem
  obtain ⟨n, _, hrow_eq, _⟩ := mem_grid_iff.mp hrow
  have hband : bandIdx t = (n : Int) := (mem_of_mem_grid_row hrow_eq hmem).2
  have hneg : bandIdx t < 0 := by
    unfold bandIdx
    rw [Int.fdiv_eq_ediv _ (by omega)]
    exact Int.ediv_neg' ht (by omega)
  rw [hband] at hneg
  omega

/-- Witness for `negative_top_excluded` on a concrete surface: its grid is
`[[⟨2, 5, 0⟩]]`, and the negative-top target is not in that row. -/
theorem negative_top_excluded_witness :
    (⟨1, -10, 0⟩ : Target) ∉ [(⟨2, 5, 0⟩ : Target)] :=
  negative_top_excluded [⟨1, -10, 0⟩, ⟨2, 5, 0⟩] ⟨1, -10, 0⟩ (by decide)
    [⟨2, 5, 0⟩] (by decide)

/-- C8 (counterexample): two in-scope targets with equal negative band
indices (`floor(-10/80) = floor(-20/80) = -1`) are *not* placed in the same
row — they are placed in no row at all — so "same row exactly when
`floor(top/80)` is equal" fails as stated. -/
theorem sameRow_negative_cex :
    bandIdx ⟨1, -10, 0⟩ = bandIdx ⟨2, -20, 3⟩ ∧
    ¬ sameRow (updateFocusableElements [⟨1, -10, 0⟩, ⟨2, -20, 3⟩]) ⟨1, -10, 0⟩ ⟨2, -20, 3⟩ := by
  constructor
  · rfl
  · rintro ⟨row, hrow, hmem, -⟩
    have hgrid : updateFocusableElements [⟨1, -10, 0⟩, ⟨2, -20, 3⟩] = ([] : List (List Target)) :=
      rfl
    rw [hgrid] at hrow
    cases hrow

/-- C8 (amended): restricted to targets with non-negative band indices (tops
at or below the viewport origin are handled by C10), two in-scope targets
share a row exactly when their band indices `floor(top/80)` agree; each row
of the built grid is sorted by left coordinate ascending and non-empty; and
the rows appear in strictly increasing band order (top to bottom). -/
theorem updateFocusableElements_spec (ts : List Target) :
    (∀ t1 ∈ ts, ∀ t2 ∈ ts, 0 ≤ bandIdx t1 → 0 ≤ bandIdx t2 →
      (sameRow (updateFocusableElements ts) t1 t2 ↔ bandIdx t1 = bandIdx t2)) ∧
    (∀ row ∈ updateFocusableElements ts, List.Sorted leftLe row) ∧
    (∀ row ∈ updateFocusableElements ts, row ≠ []) ∧
    (updateFocusableElements ts).Pairwise
      (fun r1 r2 => ∀ t1 ∈ r1, ∀ t2 ∈ r2, bandIdx t1 < bandIdx t2) := by
  refine ⟨?_, ?_, ?_, ?_⟩
  · intro t1 h1 t2 h2 hb1 hb2
    constructor
    · rintro ⟨row, hrow, hm1, hm2⟩
      obtain ⟨n, -, hrow_eq, -⟩ := mem_grid_iff.mp hrow
      rw [(mem_of_mem_grid_row hrow_eq hm1).2, (mem_of_mem_grid_row hrow_eq hm2).2]
    · intro heq
      obtain ⟨n, hn⟩ := Int.eq_ofNat_of_zero_le hb1
      have hbuck1 : t1 ∈ bucket ts n := mem_bucket_iff.mpr ⟨h1, hn⟩
      have hbuck2 : t2 ∈ bucket ts n := mem_bucket_iff.mpr ⟨h2, by rw [← heq, hn]⟩
      refine ⟨List.insertionSort leftLe (bucket ts n),
        mem_grid_iff.mpr ⟨n, lt_maxBand h1 hn, rfl, List.ne_nil_of_mem hbuck1⟩,
        (List.perm_insertionSort leftLe (bucket ts n)).mem_iff.mpr hbuck1,
        (List.perm_insertionSort leftLe (bucket ts n)).mem_iff.mpr hbuck2⟩
  · intro row hrow
    obtain ⟨n, -, hrow_eq, -⟩ := mem_grid_iff.mp hrow
    rw [hrow_eq]
    exact List.sorted_insertionSort leftLe (bucket ts n)
  · intro row hrow
    obtain ⟨n, -, hrow_eq, hne⟩ := mem_grid_iff.mp hrow
    rw [hrow_eq]
    intro hnil
    have hperm := List.perm_insertionSort leftLe (bucket ts n)
    rw [hnil] at hperm
    exact hne hperm.symm.eq_nil
  · unfold updateFocusableElements
    apply List.Pairwise.filter
    rw [List.pairwise_map]
    refine (List.pairwise_lt_range (maxBand ts)).imp ?_
    intro n1 n2 hlt t1 hm1 t2 hm2
    have hb1 := (mem_of_mem_grid_row rfl hm1).2
    have hb2 := (mem_of_mem_grid_row rfl hm2).2
    rw [hb1, hb2]
    exact_mod_cast hlt

/-- Witness for `updateFocusableElements_spec` on a concrete surface. -/
theorem updateFocusableElements_spec_witness :
    sameRow (updateFocusableElements [⟨1, 0, 5⟩, ⟨2, 10, 0⟩, ⟨3, 100, 0⟩])
        ⟨1, 0, 5⟩ ⟨2, 10, 0⟩ ↔
      bandIdx ⟨1, 0, 5⟩ = bandIdx ⟨2, 10, 0⟩ :=
  (updateFocusableElements_spec [⟨1, 0, 5⟩, ⟨2, 10, 0⟩, ⟨3, 100, 0⟩]).1
    ⟨1, 0, 5⟩ (by decide) ⟨2, 10, 0⟩ (by decide) (by decide) (by decide)

end FreeTV
